import Mathlib

/-
  Verification of the BLE sensor protocol layer of bleChartApp.

  Shallow embedding of the v1.4.0 sources:
    - src/src/api/BleProtocol.js   (frame codec: buildSysSettingCmd, buildSimpleCmd,
                                    parseNotification — the generic 16-bit big-endian parser)
    - src/unnamed/part_001         (DataBuffer.js: appendBuffer rolling window)
    - src/src/api/BleProtocol.js lines 686-934 (useSensorLogic.js v1.4.0:
                                    handleIncomingData, pushToBuffer, the 25 ms
                                    publisher interval, connectAndStart, stopAndDisconnect)

  Byte buffers are Lists of Nat (each element a byte value); JS objects keyed by
  channel index are association lists ordered by key insertion; the fallible
  Node Buffer writes (writeUInt8 throws a RangeError on out-of-range input)
  return Option.
-/

namespace BleChart

/-! ## Protocol constants (BleProtocol.js, COMMANDS) -/

def CMD_SYS_PARAM_READ : Nat := 0x01
def CMD_SYS_SETTING_SET : Nat := 0x08
def CMD_SCAN_START : Nat := 0x18
def CMD_SCAN_STOP : Nat := 0x1F
def RES_SYS_UNSOLICITED : Nat := 0x8E

/-! ## Node Buffer primitives used by the codec -/

/-- Buffer.alloc(n): a zero-filled byte buffer of length n. -/
def bufAlloc (n : Nat) : List Nat := List.replicate n 0

/-- buffer.writeUInt8(value, off): writes one byte; Node throws a RangeError when
the value is outside 0..255 or the offset is outside the buffer, modelled as none. -/
def writeUInt8 (buf : List Nat) (value off : Nat) : Option (List Nat) :=
  if value < 256 ∧ off + 1 ≤ buf.length then some (buf.set off value) else none

/-- buffer.write(string, off, len, ascii): writes the byte sequence starting at
off; bytes falling outside the buffer are dropped (List.set out of range is the
identity), matching Buffer.write truncation. -/
def bufWriteBytes : List Nat → List Nat → Nat → List Nat
  | buf, [], _ => buf
  | buf, d :: ds, off => bufWriteBytes (buf.set off d) ds (off + 1)

/-! ## Frame codec (BleProtocol.js v1.4.0) -/

/-- buildSysSettingCmd (BleProtocol.js lines 103-118).
Allocates 6 bytes, writes the command code 0x08 at 0, the mode at 1, the ASCII
literal "200" (0x32 0x30 0x30) at 2..4, and the simulation flag (ASCII one when
isSimulated else ASCII zero) at 5.  The freq parameter is accepted but never
read by the body, hence its fully generic type here.  The source finally
base64-encodes the buffer for transmission; we model the buffer contents. -/
def buildSysSettingCmd {α : Type} (mode : Nat) (freq : α) (isSimulated : Bool) :
    Option (List Nat) :=
  (writeUInt8 (bufAlloc 6) CMD_SYS_SETTING_SET 0).bind fun b0 =>
  (writeUInt8 b0 mode 1).bind fun b1 =>
  let b2 := bufWriteBytes b1 [0x32, 0x30, 0x30] 2
  writeUInt8 b2 (if isSimulated then 0x31 else 0x30) 5

/-- buildSimpleCmd (BleProtocol.js lines 129-133): a single-byte command frame. -/
def buildSimpleCmd (cmdId : Nat) : Option (List Nat) :=
  writeUInt8 (bufAlloc 1) cmdId 0

/-- The while loop of parseNotification (BleProtocol.js lines 169-174):
while offset + 1 < buffer.length, read buffer.readUInt16BE(offset) — the
big-endian uint16 at offset — and advance offset by 2.  Reading the buffer
suffix starting at the initial offset two bytes at a time is exactly the
pairwise traversal below; a single trailing byte fails the loop guard and is
discarded. -/
def parseLoop : List Nat → List Nat
  | [] => []
  | [_] => []
  | hi :: lo :: rest => (256 * hi + lo) :: parseLoop rest

/-- parseNotification (BleProtocol.js lines 154-177, the v1.4.0 generic parser).
If the buffer is non-empty and starts with the unsolicited marker 0x8E the
2-byte header is skipped (offset = 2), then the remainder is read as a flat
stream of big-endian uint16 values.  Always returns a list (possibly empty);
the v1.4.0 source never returns null and never throws. -/
def parseNotification (b : List Nat) : List Nat :=
  let off := if 0 < b.length ∧ b.getD 0 0 = RES_SYS_UNSOLICITED then 2 else 0
  parseLoop (b.drop off)

/-! ## DataBuffer.js (src/unnamed/part_001 lines 44-55) -/

/-- appendBuffer: concatenate, and when the capacity is exceeded keep only the
last maxSize elements (updated.slice(updated.length - maxSize)). -/
def appendBuffer (currentBuffer newData : List Nat) (maxSize : Nat) : List Nat :=
  let updated := currentBuffer ++ newData
  if updated.length > maxSize then
    updated.drop (updated.length - maxSize)
  else
    updated

/-- The last n elements of a list (the meaning of slice(-n) / the rolling
window); used to state what the rolling-window operations retain. -/
def lastN (n : Nat) (l : List α) : List α := l.drop (l.length - n)

/-! ## Channel buffers (useSensorLogic.js v1.4.0)

A JS object keyed by channel index, as an association list in key insertion
order. -/

abbrev Buffers := List (Nat × List Nat)

/-- dataBuffersRef.current[key] — property lookup. -/
def lookupBuf : Buffers → Nat → Option (List Nat)
  | [], _ => none
  | (k, v) :: rest, key => if k = key then some v else lookupBuf rest key

/-- dataBuffersRef.current[key] = v — property assignment (creates the key at
the end when absent, overwrites in place when present). -/
def setBuf : Buffers → Nat → List Nat → Buffers
  | [], key, v => [(key, v)]
  | (k, w) :: rest, key, v =>
    if k = key then (k, v) :: rest else (k, w) :: setBuf rest key v

/-- pushToBuffer (BleProtocol.js lines 857-862): create the channel entry as []
on first use, then push the value onto the end.  No capacity check. -/
def pushToBuffer (bufs : Buffers) (channelIndex value : Nat) : Buffers :=
  match lookupBuf bufs channelIndex with
  | none => setBuf bufs channelIndex [value]
  | some l => setBuf bufs channelIndex (l ++ [value])

/-- values.forEach((val, index) => pushToBuffer(index, val)) — the generic
fallback of handleIncomingData, as an indexed traversal starting at index i. -/
def forEachPush : Buffers → Nat → List Nat → Buffers
  | bufs, _, [] => bufs
  | bufs, i, v :: vs => forEachPush (pushToBuffer bufs i v) (i + 1) vs

/-- handleIncomingData (BleProtocol.js lines 831-854), buffer-mutation part:
six-value frames use the fixed layout ch0,ch1,ch2,ch0,ch1,ch2 in that literal
order; any other non-empty frame routes value at index i to channel i
(values.forEach with pushToBuffer(index, val)); an empty frame is a no-op. -/
def handleIncomingData (bufs : Buffers) (values : List Nat) : Buffers :=
  if values.length = 6 then
    pushToBuffer (pushToBuffer (pushToBuffer (pushToBuffer (pushToBuffer
      (pushToBuffer bufs 0 (values.getD 0 0)) 1 (values.getD 1 0))
      2 (values.getD 2 0)) 0 (values.getD 3 0)) 1 (values.getD 4 0))
      2 (values.getD 5 0)
  else if values.length > 0 then
    forEachPush bufs 0 values
  else
    bufs

/-! ## Snapshot publisher (BleProtocol.js lines 895-924)

Every 25 ms the interval iterates Object.keys(dataBuffersRef.current); for each
key whose buffer is non-empty it sets
channelData[key] = [...prevPoints, ...newPoints].slice(-100) and clears the
buffer for that key; keys with no new points are left untouched. -/

/-- One key of the publisher loop body. -/
def tickStep (st : Buffers × Buffers) (key : Nat) : Buffers × Buffers :=
  let newPoints := (lookupBuf st.2 key).getD []
  if newPoints.length > 0 then
    let prevPoints := (lookupBuf st.1 key).getD []
    (setBuf st.1 key (lastN 100 (prevPoints ++ newPoints)), setBuf st.2 key [])
  else
    st

/-- One full publisher tick over the published state and the internal buffers;
returns (new published state, new internal buffers). -/
def publisherTick (pub bufs : Buffers) : Buffers × Buffers :=
  (bufs.map Prod.fst).foldl tickStep (pub, bufs)

/-! ## Session state machine (useSensorLogic.js v1.4.0) -/

/-- The setStatus values of useSensorLogic, as an enumeration. -/
inductive SessionStatus
  | Disconnected | Connecting | DiscoveringServices | ConfiguringSettings
  | VerifyingParameters | SubscribingToStream | StartingScan | Streaming | Error
  deriving DecidableEq, Repr

/-- The transport operations invoked by the handshake and teardown. -/
inductive TransportOp
  | connectDevice | discoverServices | writeSystemSetting | writeParamRead
  | subscribeNotify | writeScanStart
  deriving DecidableEq, Repr

/-- Outcome oracle for the awaited transport calls of one handshake run
(monitorCharacteristicForService registers a callback and is not awaited, so it
has no failure entry). -/
structure Transport where
  connectOk : Bool
  discoverOk : Bool
  writeSystemSettingOk : Bool
  writeParamReadOk : Bool
  writeScanStartOk : Bool

/-- connectAndStart (BleProtocol.js lines 760-819): the awaited steps run in
order inside one try block; the first rejected await jumps to the catch block,
which sets the status to Error, so no later step runs.  Returns the final
status and the list of transport operations that were invoked. -/
def connectAndStart (t : Transport) : SessionStatus × List TransportOp :=
  if !t.connectOk then
    (.Error, [.connectDevice])
  else if !t.discoverOk then
    (.Error, [.connectDevice, .discoverServices])
  else if !t.writeSystemSettingOk then
    (.Error, [.connectDevice, .discoverServices, .writeSystemSetting])
  else if !t.writeParamReadOk then
    (.Error, [.connectDevice, .discoverServices, .writeSystemSetting,
      .writeParamRead])
  else if !t.writeScanStartOk then
    (.Error, [.connectDevice, .discoverServices, .writeSystemSetting,
      .writeParamRead, .subscribeNotify, .writeScanStart])
  else
    (.Streaming, [.connectDevice, .discoverServices, .writeSystemSetting,
      .writeParamRead, .subscribeNotify, .writeScanStart])

/-- The hook state touched by stopAndDisconnect: the device handle, the status,
the published channelData, and the internal dataBuffersRef. -/
structure SessionState where
  deviceConnected : Bool
  status : SessionStatus
  channelData : Buffers
  dataBuffers : Buffers
  deriving DecidableEq, Repr

/-- stopAndDisconnect (BleProtocol.js lines 867-885): when a device is held, the
ScanStop write is attempted inside try/catch whose catch block is empty — its
outcome (the scanStopWriteOk argument) is discarded either way — then the
connection is cancelled, the device cleared, the status set to Disconnected,
and both channelData and dataBuffersRef reset to empty.  Without a device the
call is a no-op.  (Per the transport interface of the spec, disconnect itself
has no failure mode.) -/
def stopAndDisconnect (scanStopWriteOk : Bool) (s : SessionState) : SessionState :=
  if s.deviceConnected then
    ⟨false, .Disconnected, [], []⟩
  else
    s

/-! ## Codec lemmas -/

theorem parseLoop_length : ∀ l : List Nat, (parseLoop l).length = l.length / 2
  | [] => by simp [parseLoop]
  | [_] => by simp [parseLoop]
  | _ :: _ :: rest => by
    simp only [parseLoop, List.length_cons, parseLoop_length rest]
    omega

/-- Shared computation of the full system-setting frame. -/
theorem buildSysSettingCmd_eq {α : Type} (mode : Nat) (h : mode < 256)
    (freq : α) (sim : Bool) :
    buildSysSettingCmd mode freq sim =
      some [0x08, mode, 0x32, 0x30, 0x30, if sim then 0x31 else 0x30] := by
  have h1 : writeUInt8 (bufAlloc 6) CMD_SYS_SETTING_SET 0 =
      some [0x08, 0, 0, 0, 0, 0] := by decide
  have h2 : writeUInt8 [0x08, 0, 0, 0, 0, 0] mode 1 =
      some [0x08, mode, 0, 0, 0, 0] := by
    unfold writeUInt8
    rw [if_pos ⟨h, by norm_num⟩]
    exact rfl
  have h3 : bufWriteBytes [0x08, mode, 0, 0, 0, 0] [0x32, 0x30, 0x30] 2 =
      [0x08, mode, 0x32, 0x30, 0x30, 0] := rfl
  have h4 : writeUInt8 [0x08, mode, 0x32, 0x30, 0x30, 0]
      (if sim then 0x31 else 0x30) 5 =
      some [0x08, mode, 0x32, 0x30, 0x30, if sim then 0x31 else 0x30] := by
    unfold writeUInt8
    rw [if_pos ⟨by split <;> norm_num, by simp⟩]
    exact rfl
  simp only [buildSysSettingCmd, h1, h2, h3, h4, Option.some_bind]

/-- C3 (confirmed): for every mode byte (value below 256) and every simulated
flag, buildSysSettingCmd builds exactly 6 bytes: byte 0 is 0x08, byte 1 is the
mode, bytes 2..4 are the ASCII string "200" (0x32 0x30 0x30), byte 5 is 0x31
when simulated and 0x30 otherwise. -/
theorem buildSysSettingCmd_bytes {α : Type} (mode : Nat) (h : mode < 256)
    (freq : α) (sim : Bool) :
    ∃ out, buildSysSettingCmd mode freq sim = some out ∧
      out.length = 6 ∧ out.getD 0 0 = 0x08 ∧ out.getD 1 0 = mode ∧
      (out.drop 2).take 3 = [0x32, 0x30, 0x30] ∧
      out.getD 5 0 = (if sim then 0x31 else 0x30) := by
  refine ⟨[0x08, mode, 0x32, 0x30, 0x30, if sim then 0x31 else 0x30],
    buildSysSettingCmd_eq mode h freq sim, ?_⟩
  simp [List.getD]

/-- Witness for C3 at mode 0x32 (RAW_ONLY), freq 200, simulated true. -/
theorem buildSysSettingCmd_bytes_witness :
    ∃ out, buildSysSettingCmd 0x32 (200 : Nat) true = some out ∧
      out.length = 6 ∧ out.getD 0 0 = 0x08 ∧ out.getD 1 0 = 0x32 ∧
      (out.drop 2).take 3 = [0x32, 0x30, 0x30] ∧
      out.getD 5 0 = (if true then 0x31 else 0x30) :=
  buildSysSettingCmd_bytes 0x32 (by norm_num) (200 : Nat) true

/-- C9 (confirmed): the caller-supplied rate argument has no effect on the
encoded frame — outputs for any two freq arguments coincide — and whenever a
frame is produced its rate field (bytes 2..4) is the ASCII literal "200". -/
theorem buildSysSettingCmd_ignores_freq {α : Type} (mode : Nat) (sim : Bool)
    (f1 f2 : α) :
    buildSysSettingCmd mode f1 sim = buildSysSettingCmd mode f2 sim ∧
    (mode < 256 → ∀ out, buildSysSettingCmd mode f1 sim = some out →
      (out.drop 2).take 3 = [0x32, 0x30, 0x30]) := by
  refine ⟨rfl, fun h out hout => ?_⟩
  rw [buildSysSettingCmd_eq mode h f1 sim] at hout
  cases hout
  rfl

/-- Witness for C9: mode 0x32, rates 200 and 999, simulated false. -/
theorem buildSysSettingCmd_ignores_freq_witness :
    buildSysSettingCmd 0x32 (200 : Nat) false = buildSysSettingCmd 0x32 999 false ∧
    List.take 3 (List.drop 2 ((buildSysSettingCmd 0x32 (200 : Nat) false).getD [])) =
      [0x32, 0x30, 0x30] := by
  have h := buildSysSettingCmd_ignores_freq 0x32 false (200 : Nat) 999
  refine ⟨h.1, ?_⟩
  have he := buildSysSettingCmd_eq 0x32 (by norm_num) (200 : Nat) false
  rw [he]
  exact h.2 (by norm_num) _ he

/-- C1 counterexample: a 16-byte frame with the 0x8E header satisfies the
claim's hypotheses (length at least 14, first byte 0x8E) but parseNotification
returns 7 values, not exactly 6: the loop keeps reading 16-bit values past byte
14 until fewer than two bytes remain. -/
theorem parse_sixteen_byte_frame_yields_seven :
    14 ≤ ([0x8E, 0x02, 0x00, 0x64, 0x00, 0xC8, 0x01, 0x2C, 0x00, 0x65,
      0x00, 0xC9, 0x01, 0x2D, 0x09, 0x09] : List Nat).length ∧
    ([0x8E, 0x02, 0x00, 0x64, 0x00, 0xC8, 0x01, 0x2C, 0x00, 0x65,
      0x00, 0xC9, 0x01, 0x2D, 0x09, 0x09] : List Nat).getD 0 0 = 0x8E ∧
    (parseNotification [0x8E, 0x02, 0x00, 0x64, 0x00, 0xC8, 0x01, 0x2C, 0x00,
      0x65, 0x00, 0xC9, 0x01, 0x2D, 0x09, 0x09]).length ≠ 6 := by
  decide

/-- C1 (corrected): for every byte sequence b with length at least 14 whose
first byte is 0x8E, parseNotification returns (len(b) - 2) / 2 values whose
first 6 equal the big-endian uint16 reinterpretation of bytes b[2..14); the
count is exactly 6 when len(b) is at most 15, but exceeds 6 for longer
buffers (the loop keeps consuming the remainder two bytes at a time). -/
theorem parse_header_frame_first_six_values (b : List Nat)
    (h14 : 14 ≤ b.length) (hh : b.getD 0 0 = 0x8E) :
    (parseNotification b).take 6 =
      [256 * b.getD 2 0 + b.getD 3 0, 256 * b.getD 4 0 + b.getD 5 0,
       256 * b.getD 6 0 + b.getD 7 0, 256 * b.getD 8 0 + b.getD 9 0,
       256 * b.getD 10 0 + b.getD 11 0, 256 * b.getD 12 0 + b.getD 13 0] ∧
    (parseNotification b).length = (b.length - 2) / 2 ∧
    (b.length ≤ 15 → (parseNotification b).length = 6) := by
  rcases b with _ | ⟨a0, _ | ⟨a1, _ | ⟨a2, _ | ⟨a3, _ | ⟨a4, _ | ⟨a5, _ | ⟨a6,
    _ | ⟨a7, _ | ⟨a8, _ | ⟨a9, _ | ⟨a10, _ | ⟨a11, _ | ⟨a12, _ | ⟨a13,
    rest⟩⟩⟩⟩⟩⟩⟩⟩⟩⟩⟩⟩⟩⟩ <;>
    simp_all [parseNotification, parseLoop, parseLoop_length, RES_SYS_UNSOLICITED]
  omega

/-- Witness for C1 on the 14-byte scenario frame of the spec. -/
theorem parse_header_frame_first_six_values_witness :
    (parseNotification [0x8E, 0x02, 0x00, 0x64, 0x00, 0xC8, 0x01, 0x2C, 0x00,
      0x65, 0x00, 0xC9, 0x01, 0x2D]).take 6 = [100, 200, 300, 101, 201, 301] ∧
    (parseNotification [0x8E, 0x02, 0x00, 0x64, 0x00, 0xC8, 0x01, 0x2C, 0x00,
      0x65, 0x00, 0xC9, 0x01, 0x2D]).length = 6 := by
  have h := parse_header_frame_first_six_values
    [0x8E, 0x02, 0x00, 0x64, 0x00, 0xC8, 0x01, 0x2C, 0x00, 0x65, 0x00, 0xC9,
      0x01, 0x2D] (by decide) (by decide)
  exact ⟨by rw [h.1]; decide, h.2.2 (by decide)⟩

/-- C6 (confirmed): any buffer shorter than the minimum viable frame — 4 bytes
when it opens with the 0x8E header, 2 bytes otherwise — decodes to the empty
sequence; the v1.4.0 parser is total and returns a list, never null and never
an error. -/
theorem parse_short_frame_empty (b : List Nat)
    (h : b.length < if b.getD 0 0 = RES_SYS_UNSOLICITED then 4 else 2) :
    parseNotification b = [] := by
  apply List.eq_nil_of_length_eq_zero
  show (parseLoop (b.drop
    (if 0 < b.length ∧ b.getD 0 0 = RES_SYS_UNSOLICITED then 2 else 0))).length = 0
  rw [parseLoop_length, List.length_drop]
  by_cases hc : b.getD 0 0 = RES_SYS_UNSOLICITED
  · rw [if_pos hc] at h
    by_cases hp : 0 < b.length
    · rw [if_pos ⟨hp, hc⟩]; omega
    · rw [if_neg (fun hcon => hp hcon.1)]; omega
  · rw [if_neg hc] at h
    rw [if_neg (fun hcon => hc hcon.2)]; omega

/-- Witness for C6 on a 3-byte headered fragment. -/
theorem parse_short_frame_empty_witness :
    (([0x8E, 0x00, 0x00] : List Nat).length <
      if ([0x8E, 0x00, 0x00] : List Nat).getD 0 0 = RES_SYS_UNSOLICITED
      then 4 else 2) ∧
    parseNotification [0x8E, 0x00, 0x00] = [] :=
  ⟨by decide, parse_short_frame_empty _ (by decide)⟩

/-! ## Rolling-window lemmas (DataBuffer.js) -/

theorem lastN_length_le (n : Nat) (l : List α) : (lastN n l).length ≤ n := by
  simp only [lastN, List.length_drop]
  omega

theorem appendBuffer_eq_lastN (cur new : List Nat) (cap : Nat) :
    appendBuffer cur new cap = lastN cap (cur ++ new) := by
  simp only [appendBuffer, lastN]
  split
  · rfl
  · rename_i hle
    rw [show (cur ++ new).length - cap = 0 by omega, List.drop_zero]

theorem lastN_lastN_append (n : Nat) (a b : List α) :
    lastN n (lastN n a ++ b) = lastN n (a ++ b) := by
  simp only [lastN]
  rw [← List.drop_append_of_le_length (by omega), List.drop_drop]
  congr 1
  simp only [List.length_append, List.length_drop]
  omega

theorem foldl_appendBuffer_lastN (cap : Nat) :
    ∀ (batches : List (List Nat)) (init : List Nat),
    batches.foldl (fun cur new => appendBuffer cur new cap) (lastN cap init) =
      lastN cap (init ++ batches.flatten)
  | [], init => by simp
  | new :: rest, init => by
    rw [List.foldl_cons, appendBuffer_eq_lastN, lastN_lastN_append,
      foldl_appendBuffer_lastN cap rest (init ++ new)]
    simp [List.append_assoc]

set_option maxRecDepth 4000 in
/-- C2 counterexample: pushToBuffer enforces no capacity at all — after 101
pushes to channel 0 the internal channel sequence has length 101, above the
default capacity 100. -/
theorem pushToBuffer_exceeds_capacity :
    100 < ((lookupBuf
      ((List.range 101).foldl (fun b i => pushToBuffer b 0 i) []) 0).getD
      []).length := by
  decide

/-- C2 (corrected): the capacity invariant holds for the appendBuffer rolling
window, not for the ingest-path pushToBuffer: folding appendBuffer over any
batch sequence starting from the empty channel yields exactly the
most-recently-pushed cap elements in their original order, and its length
never exceeds cap. -/
theorem appendBuffer_fold_keeps_last_capacity (cap : Nat)
    (batches : List (List Nat)) :
    batches.foldl (fun cur new => appendBuffer cur new cap) [] =
      lastN cap batches.flatten ∧
    (batches.foldl (fun cur new => appendBuffer cur new cap) []).length ≤ cap := by
  have h0 : (lastN cap ([] : List Nat)) = [] := by simp [lastN]
  have h := foldl_appendBuffer_lastN cap batches []
  rw [h0, List.nil_append] at h
  exact ⟨h, h ▸ lastN_length_le cap batches.flatten⟩

/-! ## Channel-buffer lemmas (useSensorLogic.js v1.4.0) -/

theorem lookup_setBuf_self (m : Buffers) (k : Nat) (v : List Nat) :
    lookupBuf (setBuf m k v) k = some v := by
  induction m with
  | nil => simp [setBuf, lookupBuf]
  | cons hd tl ih =>
    obtain ⟨k', w⟩ := hd
    by_cases h : k' = k <;> simp [setBuf, lookupBuf, h, ih]

theorem lookup_setBuf_ne (m : Buffers) (k k' : Nat) (v : List Nat)
    (h : k' ≠ k) : lookupBuf (setBuf m k v) k' = lookupBuf m k' := by
  induction m with
  | nil => simp [setBuf, lookupBuf, Ne.symm h]
  | cons hd tl ih =>
    obtain ⟨k'', w⟩ := hd
    by_cases h2 : k'' = k <;> by_cases h3 : k'' = k' <;>
      simp_all [setBuf, lookupBuf]

theorem lookup_push_self (bufs : Buffers) (k v : Nat) :
    lookupBuf (pushToBuffer bufs k v) k =
      some ((lookupBuf bufs k).getD [] ++ [v]) := by
  unfold pushToBuffer
  cases h : lookupBuf bufs k <;> simp [h, lookup_setBuf_self]

theorem lookup_push_ne (bufs : Buffers) (k k' v : Nat) (h : k' ≠ k) :
    lookupBuf (pushToBuffer bufs k v) k' = lookupBuf bufs k' := by
  unfold pushToBuffer
  cases lookupBuf bufs k <;> simp [lookup_setBuf_ne _ _ _ _ h]

/-- C4 (confirmed): on a 6-value decoded frame the demultiplexer appends
values 0 and 3 to channel 0, values 1 and 4 to channel 1, and values 2 and 5
to channel 2, each pair in its original (temporal) order, so each of the three
channels receives exactly two new values. -/
theorem demux_six_value_layout (bufs : Buffers) (vs : List Nat)
    (h : vs.length = 6) :
    lookupBuf (handleIncomingData bufs vs) 0 =
      some ((lookupBuf bufs 0).getD [] ++ [vs.getD 0 0, vs.getD 3 0]) ∧
    lookupBuf (handleIncomingData bufs vs) 1 =
      some ((lookupBuf bufs 1).getD [] ++ [vs.getD 1 0, vs.getD 4 0]) ∧
    lookupBuf (handleIncomingData bufs vs) 2 =
      some ((lookupBuf bufs 2).getD [] ++ [vs.getD 2 0, vs.getD 5 0]) := by
  unfold handleIncomingData
  rw [if_pos h]
  refine ⟨?_, ?_, ?_⟩ <;>
    simp [lookup_push_self, lookup_push_ne]

/-- Witness for C4 on the spec scenario values [100,200,300,101,201,301]. -/
theorem demux_six_value_layout_witness :
    lookupBuf (handleIncomingData [] [100, 200, 300, 101, 201, 301]) 0 =
      some [100, 101] ∧
    lookupBuf (handleIncomingData [] [100, 200, 300, 101, 201, 301]) 1 =
      some [200, 201] ∧
    lookupBuf (handleIncomingData [] [100, 200, 300, 101, 201, 301]) 2 =
      some [300, 301] := by
  have h := demux_six_value_layout [] [100, 200, 300, 101, 201, 301] (by decide)
  exact ⟨by rw [h.1]; decide, by rw [h.2.1]; decide, by rw [h.2.2]; decide⟩

theorem lookup_forEachPush_outside :
    ∀ (vs : List Nat) (bufs : Buffers) (i k : Nat),
    (k < i ∨ i + vs.length ≤ k) →
    lookupBuf (forEachPush bufs i vs) k = lookupBuf bufs k
  | [], _, _, _, _ => rfl
  | v :: vs, bufs, i, k, h => by
    simp only [List.length_cons] at h
    rw [forEachPush,
      lookup_forEachPush_outside vs (pushToBuffer bufs i v) (i + 1) k (by omega),
      lookup_push_ne bufs i k v (by omega)]

/-- C10 (confirmed): the demultiplexer leaves every channel outside its layout
untouched — a 6-value frame only appends to channels 0, 1, 2; an n-value frame
with n not 6 only appends to channels 0..n-1; an empty frame mutates no channel
buffer at all. -/
theorem demux_frame_effect (bufs : Buffers) (vs : List Nat) (k : Nat) :
    (vs = [] → handleIncomingData bufs vs = bufs) ∧
    (vs.length = 6 → 3 ≤ k →
      lookupBuf (handleIncomingData bufs vs) k = lookupBuf bufs k) ∧
    (vs.length ≠ 6 → vs.length ≤ k →
      lookupBuf (handleIncomingData bufs vs) k = lookupBuf bufs k) := by
  refine ⟨?_, ?_, ?_⟩
  · rintro rfl
    rfl
  · intro h6 hk
    unfold handleIncomingData
    rw [if_pos h6]
    have h0 : k ≠ 0 := by omega
    have h1 : k ≠ 1 := by omega
    have h2 : k ≠ 2 := by omega
    simp [lookup_push_ne, h0, h1, h2]
  · intro h6 hk
    unfold handleIncomingData
    rw [if_neg h6]
    split
    · exact lookup_forEachPush_outside vs bufs 0 k (Or.inr (by omega))
    · rfl

/-- Witness for C10: channel 3 is untouched by a 6-value frame, by a 2-value
frame, and by an empty frame. -/
theorem demux_frame_effect_witness :
    lookupBuf (handleIncomingData [(3, [7])] [1, 2, 3, 4, 5, 6]) 3 = some [7] ∧
    lookupBuf (handleIncomingData [(3, [7])] [1, 2]) 3 = some [7] ∧
    handleIncomingData [(3, [7])] [] = [(3, [7])] := by
  refine ⟨?_, ?_, ?_⟩
  · rw [(demux_frame_effect [(3, [7])] [1, 2, 3, 4, 5, 6] 3).2.1 (by decide)
      (by decide)]
    decide
  · rw [(demux_frame_effect [(3, [7])] [1, 2] 3).2.2 (by decide) (by decide)]
    decide
  · exact (demux_frame_effect [(3, [7])] [] 3).1 rfl

/-! ## Snapshot-publisher lemmas -/

theorem tickStep_lookup_ne (st : Buffers × Buffers) (key k : Nat)
    (h : k ≠ key) :
    lookupBuf (tickStep st key).1 k = lookupBuf st.1 k ∧
    lookupBuf (tickStep st key).2 k = lookupBuf st.2 k := by
  unfold tickStep
  dsimp only
  split
  · exact ⟨lookup_setBuf_ne _ _ _ _ h, lookup_setBuf_ne _ _ _ _ h⟩
  · exact ⟨rfl, rfl⟩

theorem foldl_tickStep_not_mem :
    ∀ (keys : List Nat) (st : Buffers × Buffers) (k : Nat), k ∉ keys →
    lookupBuf (keys.foldl tickStep st).1 k = lookupBuf st.1 k ∧
    lookupBuf (keys.foldl tickStep st).2 k = lookupBuf st.2 k
  | [], _, _, _ => ⟨rfl, rfl⟩
  | key :: keys, st, k, h => by
    have hne : k ≠ key := fun he => h (he ▸ List.mem_cons_self _ _)
    have hrec := foldl_tickStep_not_mem keys (tickStep st key) k
      (fun hm => h (List.mem_cons_of_mem _ hm))
    have hstep := tickStep_lookup_ne st key k hne
    rw [List.foldl_cons]
    exact ⟨hrec.1.trans hstep.1, hrec.2.trans hstep.2⟩

theorem foldl_tickStep_no_new :
    ∀ (keys : List Nat) (st : Buffers × Buffers) (k : Nat),
    (lookupBuf st.2 k = none ∨ lookupBuf st.2 k = some []) →
    lookupBuf (keys.foldl tickStep st).1 k = lookupBuf st.1 k
  | [], _, _, _ => rfl
  | key :: keys, st, k, h => by
    rw [List.foldl_cons]
    by_cases hk : k = key
    · subst hk
      have hid : tickStep st k = st := by
        rcases h with h | h <;> simp [tickStep, h]
      rw [hid]
      exact foldl_tickStep_no_new keys st k h
    · have hstep := tickStep_lookup_ne st key k hk
      have hrec := foldl_tickStep_no_new keys (tickStep st key) k
        (by rcases h with h | h
            exacts [Or.inl (hstep.2.trans h), Or.inr (hstep.2.trans h)])
      exact hrec.trans hstep.1

theorem mem_of_lookup_some :
    ∀ (m : Buffers) (k : Nat) (v : List Nat),
    lookupBuf m k = some v → k ∈ m.map Prod.fst
  | [], _, _, h => by simp [lookupBuf] at h
  | (k', w) :: rest, k, v, h => by
    simp only [lookupBuf] at h
    by_cases he : k' = k
    · simp [he]
    · rw [if_neg he] at h
      simp [mem_of_lookup_some rest k v h]

/-- C5 (confirmed): on a publisher tick, every channel holding at least one
newly buffered sample gets published as the previous published sequence
concatenated with the buffered samples and truncated to the last 100 elements
(so its published length is at most 100), and its internal buffer is cleared;
every channel with no new samples keeps its previously published sequence
unchanged. -/
theorem publisherTick_merge_truncate (pub bufs : Buffers)
    (hnd : (bufs.map Prod.fst).Nodup) (k : Nat) :
    (∀ pts, lookupBuf bufs k = some pts → pts ≠ [] →
      lookupBuf (publisherTick pub bufs).1 k =
        some (lastN 100 ((lookupBuf pub k).getD [] ++ pts)) ∧
      lookupBuf (publisherTick pub bufs).2 k = some [] ∧
      ((lookupBuf (publisherTick pub bufs).1 k).getD []).length ≤ 100) ∧
    ((lookupBuf bufs k = none ∨ lookupBuf bufs k = some []) →
      lookupBuf (publisherTick pub bufs).1 k = lookupBuf pub k) := by
  constructor
  · intro pts hpts hne
    have hmem : k ∈ bufs.map Prod.fst := mem_of_lookup_some bufs k pts hpts
    obtain ⟨l1, l2, hsplit⟩ := List.append_of_mem hmem
    have hnd2 : (l1 ++ k :: l2).Nodup := hsplit ▸ hnd
    have hnotmem := (List.nodup_cons.mp (List.nodup_middle.mp hnd2)).1
    simp only [List.mem_append] at hnotmem
    have hk1 : k ∉ l1 := fun h1 => hnotmem (Or.inl h1)
    have hk2 : k ∉ l2 := fun h2 => hnotmem (Or.inr h2)
    unfold publisherTick
    rw [hsplit, List.foldl_append, List.foldl_cons]
    set st1 := l1.foldl tickStep (pub, bufs) with hst1
    have h1 := foldl_tickStep_not_mem l1 (pub, bufs) k hk1
    rw [← hst1] at h1
    have hbuf : lookupBuf st1.2 k = some pts := h1.2.trans hpts
    have hpub : lookupBuf st1.1 k = lookupBuf pub k := h1.1
    have hstep : tickStep st1 k =
        (setBuf st1.1 k (lastN 100 ((lookupBuf st1.1 k).getD [] ++ pts)),
         setBuf st1.2 k []) := by
      unfold tickStep
      rw [hbuf]
      simp only [Option.getD_some]
      rw [if_pos (by cases pts with
        | nil => exact absurd rfl hne
        | cons a l => simp)]
    rw [hstep]
    have h2 := foldl_tickStep_not_mem l2
      (setBuf st1.1 k (lastN 100 ((lookupBuf st1.1 k).getD [] ++ pts)),
       setBuf st1.2 k []) k hk2
    refine ⟨?_, ?_, ?_⟩
    · rw [h2.1]
      show lookupBuf (setBuf st1.1 k _) k = _
      rw [lookup_setBuf_self, hpub]
    · rw [h2.2]
      exact lookup_setBuf_self _ _ _
    · rw [h2.1]
      show ((lookupBuf (setBuf st1.1 k _) k).getD []).length ≤ 100
      rw [lookup_setBuf_self]
      exact lastN_length_le _ _
  · intro h
    exact foldl_tickStep_no_new (bufs.map Prod.fst) (pub, bufs) k h

/-- Witness for C5: previous published channel 0 is [1, 2], the buffers hold
[3] for channel 0 and nothing new for channel 1, so channel 0 publishes
[1, 2, 3] and channel 1 keeps its (absent) published sequence. -/
theorem publisherTick_merge_truncate_witness :
    lookupBuf (publisherTick [(0, [1, 2])] [(0, [3]), (1, [])]).1 0 =
      some [1, 2, 3] ∧
    lookupBuf (publisherTick [(0, [1, 2])] [(0, [3]), (1, [])]).1 1 = none := by
  constructor
  · have h := ((publisherTick_merge_truncate [(0, [1, 2])] [(0, [3]), (1, [])]
      (by decide) 0).1) [3] (by decide) (by decide)
    rw [h.1]
    decide
  · have h := (publisherTick_merge_truncate [(0, [1, 2])] [(0, [3]), (1, [])]
      (by decide) 1).2 (Or.inr (by decide))
    rw [h]
    decide

/-! ## Session state machine theorems -/

/-- C7 (confirmed): in every handshake run reaching the SYSTEM_SETTING write
where that write fails, the final state is Error, and the PARAM_READ write,
the subscribe, and the SCAN_START write are never invoked — the first failing
awaited step jumps to the catch block and the sequence halts. -/
theorem handshake_setting_write_failure_halts (t : Transport)
    (hc : t.connectOk = true) (hd : t.discoverOk = true)
    (hw : t.writeSystemSettingOk = false) :
    (connectAndStart t).1 = SessionStatus.Error ∧
    TransportOp.writeParamRead ∉ (connectAndStart t).2 ∧
    TransportOp.subscribeNotify ∉ (connectAndStart t).2 ∧
    TransportOp.writeScanStart ∉ (connectAndStart t).2 := by
  simp [connectAndStart, hc, hd, hw]

/-- Witness for C7 with a transport failing exactly the SYSTEM_SETTING write. -/
theorem handshake_setting_write_failure_halts_witness :
    (connectAndStart ⟨true, true, false, true, true⟩).1 = SessionStatus.Error ∧
    TransportOp.writeParamRead ∉ (connectAndStart ⟨true, true, false, true, true⟩).2 ∧
    TransportOp.subscribeNotify ∉ (connectAndStart ⟨true, true, false, true, true⟩).2 ∧
    TransportOp.writeScanStart ∉ (connectAndStart ⟨true, true, false, true, true⟩).2 :=
  handshake_setting_write_failure_halts ⟨true, true, false, true, true⟩ rfl rfl rfl

/-- C8 (confirmed): stop() while Streaming with a held device, even when the
ScanStop write throws (its outcome is discarded by the empty catch block),
still transitions the state to Disconnected and empties both the published
channelData and the internal dataBuffersRef. -/
theorem stop_swallows_scanstop_failure (s : SessionState)
    (hdev : s.deviceConnected = true)
    (hstr : s.status = SessionStatus.Streaming) :
    (stopAndDisconnect false s).status = SessionStatus.Disconnected ∧
    (stopAndDisconnect false s).channelData = [] ∧
    (stopAndDisconnect false s).dataBuffers = [] := by
  simp [stopAndDisconnect, hdev]

/-- Witness for C8 on a streaming session with non-empty buffers. -/
theorem stop_swallows_scanstop_failure_witness :
    (stopAndDisconnect false
      ⟨true, SessionStatus.Streaming, [(0, [1])], [(0, [2])]⟩).status =
      SessionStatus.Disconnected ∧
    (stopAndDisconnect false
      ⟨true, SessionStatus.Streaming, [(0, [1])], [(0, [2])]⟩).channelData = [] ∧
    (stopAndDisconnect false
      ⟨true, SessionStatus.Streaming, [(0, [1])], [(0, [2])]⟩).dataBuffers = [] :=
  stop_swallows_scanstop_failure
    ⟨true, SessionStatus.Streaming, [(0, [1])], [(0, [2])]⟩ rfl rfl

end BleChart
